import Mathlib

/-!
Shallow embedding of the finality-provider daemon core
(`finality-provider/service/app.go`) and verification of the frozen claims.

The app orchestrator (`FinalityProviderApp`) in `app.go` is translated
directly.  Collaborators that live in this repository but outside `src/`
(the finality-provider store, the finality-provider manager and the
per-FP instance) are modelled from the spec; each such definition carries
a doc comment starting with `Modelled from the spec:`.  External
collaborators (chain RPC, EOTS manager, keyring) are environments:
structures of result-valued functions the operations consume, mirroring
the Go interfaces `ClientController` and `EOTSManager`.

Machine integers (`uint64` heights, voting power) are modelled as `Nat`;
none of the modelled arithmetic can overflow in the source (heights only
grow by small increments) and no claim is about wrap-around.  Byte
strings (addresses, hashes, signatures) are `List Nat`.  Errors are
`Except String`.  Stateful Go methods become functions returning
`result × state`, so that partial writes made before a failure persist,
exactly as in the source.
-/

/-- `proto.FinalityProviderStatus` from the proto definitions:
the six statuses of a stored finality provider. -/
inductive FinalityProviderStatus
  | CREATED
  | REGISTERED
  | ACTIVE
  | INACTIVE
  | JAILED
  | SLASHED
deriving DecidableEq, Repr

/-- `store.StoredFinalityProvider`: the persisted finality-provider record
(§3 of the spec; constructed in `handleCreateFinalityProviderRequest`).
`fpAddr` is kept as the account-address bytes (the Go store keeps the
bech32 rendering of the same address), `btcPk` abstracts the 32-byte
x-only BTC key, `popBtcSig` is the BIP-340 signature bytes of the
proof-of-possession. -/
structure StoredFinalityProvider where
  fpAddr : List Nat
  btcPk : Nat
  keyName : String
  chainID : String
  description : String
  commission : Int
  popBtcSig : List Nat
  status : FinalityProviderStatus
  lastVotedHeight : Nat
deriving DecidableEq, Repr

/-- The finality-provider store contents: the `finality_providers` bucket,
keyed by `btc_pk` (§6 of the spec). -/
abbrev FpStore := List StoredFinalityProvider

/-- `FinalityProviderStore.GetFinalityProvider`: look a record up by its
BTC public key. -/
def findFp (s : FpStore) (pk : Nat) : Option StoredFinalityProvider :=
  s.find? (fun fp => fp.btcPk == pk)

/-- The status recorded in the store for a given key, when the key is
present. -/
def fpStatusInStore (s : FpStore) (pk : Nat) : Option FinalityProviderStatus :=
  (findFp s pk).map (fun fp => fp.status)

/-- The in-store effect of a status write: every record under the key
gets the new status (`types.BlockInfo`-style records are never deleted). -/
def setStatusInStore (s : FpStore) (pk : Nat) (st : FinalityProviderStatus) : FpStore :=
  s.map (fun fp => if fp.btcPk == pk then { fp with status := st } else fp)

/-- Modelled from the spec: `FinalityProviderStore.SetFpStatus` is not
under `src/` (only its callers in `app.go` are).  Per §5, status writes
go through the store's atomic CAS-like update that refuses non-monotone
transitions out of SLASHED; a write for an absent key fails. -/
def SetFpStatus (s : FpStore) (pk : Nat) (st : FinalityProviderStatus) :
    (Except String Unit) × FpStore :=
  match findFp s pk with
  | none => (Except.error "finality provider not found", s)
  | some fp =>
    if fp.status = FinalityProviderStatus.SLASHED ∧ st ≠ FinalityProviderStatus.SLASHED then
      (Except.error "cannot transition out of SLASHED", s)
    else
      (Except.ok (), setStatusInStore s pk st)

/-- `types.BlockInfo`: the in-memory chain-block view `{height, hash}`. -/
structure BlockInfo where
  height : Nat
  hash : List Nat
deriving DecidableEq, Repr

/-! ### Crypto primitives and the EOTS manager

The spec treats SHA-256 and BIP-340 Schnorr as primitives (§1 non-goals),
so the embedding is parametric in them; the EOTS manager (§4.5) is the
sole holder of private keys. -/

/-- The cryptographic primitives the core builds on: SHA-256
(`tmhash.Sum`), BIP-340 signing and verification, and the x-only public
key derived from a secret key. -/
structure CryptoPrims where
  sha256 : List Nat → List Nat
  bip340Sign : Nat → List Nat → List Nat
  bip340Verify : Nat → List Nat → List Nat → Bool
  pkOfSk : Nat → Nat

/-- The key material held by the EOTS manager: pairs of
(x-only public key, secret key).  The core never reads the second
component; only `SignSchnorrSig` below does. -/
structure EOTSManagerState where
  keys : List (Nat × Nat)

/-- `EOTSManager.SignSchnorrSig` (§4.5): the remote signer looks the
secret key up for the given public key and returns a BIP-340 signature
over the 32-byte message hash.  The passphrase is checked by the signer
and does not influence the signature value, so it is elided here. -/
def SignSchnorrSig (cp : CryptoPrims) (em : EOTSManagerState) (fpPk : Nat)
    (msgHash : List Nat) : Except String (List Nat) :=
  match em.keys.find? (fun kv => kv.1 == fpPk) with
  | none => Except.error "key not found"
  | some kv => Except.ok (cp.bip340Sign kv.2 msgHash)

/-- `bstypes.ProofOfPossessionBTC` restricted to the fields `app.go`
sets: the signature type tag and the signature bytes. -/
structure ProofOfPossessionBTC where
  btcSigTypeIsBIP340 : Bool
  btcSig : List Nat
deriving DecidableEq, Repr

/-- `FinalityProviderApp.CreatePop` (`app.go`): build the
proof-of-possession by hashing the account-address bytes with SHA-256
and asking the EOTS manager for a Schnorr signature over the hash; the
signature type is BIP-340. -/
def CreatePop (cp : CryptoPrims) (em : EOTSManagerState) (fpAddress : List Nat)
    (fpPk : Nat) : Except String ProofOfPossessionBTC :=
  let hash := cp.sha256 fpAddress
  match SignSchnorrSig cp em fpPk hash with
  | Except.error e =>
    Except.error ("failed to get schnorr signature from the EOTS manager: " ++ e)
  | Except.ok sig =>
    Except.ok { btcSigTypeIsBIP340 := true, btcSig := sig }

/-! ### Start / Stop lifecycle (`sync.Once` semantics) -/

/-- The lifecycle facet of `FinalityProviderApp`: the two `sync.Once`
cells, how many loop goroutines were spawned (`wg.Add(4)` plus four
`go` statements in `Start`), whether `quit` was closed, and how many
full shutdown sequences ran. -/
structure AppLifecycle where
  startDone : Bool
  stopDone : Bool
  loopsSpawned : Nat
  quitClosed : Bool
  shutdownsPerformed : Nat
deriving DecidableEq, Repr

/-- The external results `Stop` depends on: `fpManager.Stop()` and
`eotsManager.Close()` (both outside the orchestrator). -/
structure StopEnv where
  fpManagerStop : Except String Unit
  eotsManagerClose : Except String Unit

/-- `FinalityProviderApp.Start` (`app.go`): under `startOnce`, spawn the
four loops.  `startErr` is declared but never assigned, so the returned
error is always `none`. -/
def AppStart (l : AppLifecycle) : (Option String) × AppLifecycle :=
  if l.startDone then (none, l)
  else (none, { l with startDone := true, loopsSpawned := l.loopsSpawned + 4 })

/-- `FinalityProviderApp.Stop` (`app.go`): under `stopOnce`, close
`quit`, wait for the loops, stop the manager, close the EOTS manager;
`stopErr` is assigned only inside the once-body, so a second call
returns `none` regardless of the first call's result. -/
def AppStop (env : StopEnv) (l : AppLifecycle) : (Option String) × AppLifecycle :=
  if l.stopDone then (none, l)
  else
    let l' := { l with stopDone := true, quitClosed := true,
                       shutdownsPerformed := l.shutdownsPerformed + 1 }
    match env.fpManagerStop with
    | Except.error e => (some e, l')
    | Except.ok _ =>
      match env.eotsManagerClose with
      | Except.error e => (some e, l')
      | Except.ok _ => (none, l')

/-! ### The chain-status sync loop's control flow -/

/-- One scheduling event of `syncChainFpStatusLoop`: a ticker tick whose
`SyncFinalityProviderStatus` call reports whether a finality-provider
instance is running, or the `quit` signal. -/
inductive SyncLoopEvent
  | tick (fpInstanceStarted : Bool)
  | quit
deriving DecidableEq, Repr

/-- `FinalityProviderApp.syncChainFpStatusLoop` (`app.go`), abstracted to
its control flow: how many times `SyncFinalityProviderStatus` runs over
a given schedule of events.  A tick always syncs once; if the sync
reports a running instance the loop returns, otherwise it waits for the
next event; `quit` exits without syncing. -/
def syncChainFpStatusLoopSyncs : List SyncLoopEvent → Nat
  | [] => 0
  | SyncLoopEvent.tick started :: rest =>
      1 + (if started then 0 else syncChainFpStatusLoopSyncs rest)
  | SyncLoopEvent.quit :: _ => 0

/-! ### The finality-signing loop's `last_voted_height` -/

/-- The per-instance state the finality-signing loop owns: the
`last_voted_height` field of the running instance (spec §3: initially 0,
monotonic). -/
structure FpInstanceState where
  lastVotedHeight : Nat
deriving DecidableEq, Repr

/-- A fresh instance's state: `last_voted_height` starts at 0 (spec §3). -/
def initialFpInstanceState : FpInstanceState := { lastVotedHeight := 0 }

/-- The chain-side inputs of one batch submission: per-height voting
power and the outcome of `SubmitBatchFinalitySigs` on the chain. -/
structure SubmitEnv where
  hasVotingPower : Nat → Bool
  submitBatchTx : List BlockInfo → Except String String

/-- The maximum height occurring in a batch of blocks. -/
def maxBatchHeight (blocks : List BlockInfo) : Nat :=
  blocks.foldl (fun m b => max m b.height) 0

/-- Modelled from the spec: `FinalityProviderInstance.SubmitBatchFinalitySignatures`
is not under `src/` (only its test `FuzzSubmitFinalitySigs` is).  Per
§4.3: skip blocks at heights `≤ last_voted_height` and blocks without
voting power; submit the rest atomically via `SubmitBatchFinalitySigs`;
on success update `last_voted_height` to the maximum submitted height
before the next batch is accepted; on failure leave it unchanged. -/
def SubmitBatchFinalitySigs (env : SubmitEnv) (s : FpInstanceState)
    (batch : List BlockInfo) : (Except String (Option String)) × FpInstanceState :=
  let targets := batch.filter
    (fun b => decide (s.lastVotedHeight < b.height) && env.hasVotingPower b.height)
  if targets.isEmpty then (Except.ok none, s)
  else
    match env.submitBatchTx targets with
    | Except.error e => (Except.error e, s)
    | Except.ok txHash =>
      (Except.ok (some txHash), { lastVotedHeight := maxBatchHeight targets })

/-- A whole trace of the finality-signing loop: batches are processed in
order, each against the state the previous one left (spec §4.3: the new
`last_voted_height` is written before the next batch is accepted). -/
def runFinalityTrace (env : SubmitEnv) (s : FpInstanceState)
    (batches : List (List BlockInfo)) : FpInstanceState :=
  batches.foldl (fun st batch => (SubmitBatchFinalitySigs env st batch).2) s

/-! ### Status sync against the chain -/

/-- The chain-side inputs of `SyncFinalityProviderStatus`: the
`ClientController` queries it performs, the manager's `IsFinalityProviderRunning`
view, and the outcome of `fpManager.StartFinalityProvider`. -/
structure ChainEnv where
  queryBestBlock : Except String BlockInfo
  queryVotingPower : Nat → Nat → Except String Nat
  isRunning : Nat → Bool
  startFinalityProvider : Nat → Except String Unit

/-- Modelled from the spec: `StoredFinalityProvider.ShouldStart` is not
under `src/`.  Per §4.1, only FPs in ACTIVE, INACTIVE or REGISTERED are
eligible to be started. -/
def shouldStart (fp : StoredFinalityProvider) : Bool :=
  match fp.status with
  | FinalityProviderStatus.ACTIVE => true
  | FinalityProviderStatus.INACTIVE => true
  | FinalityProviderStatus.REGISTERED => true
  | _ => false

/-- Modelled from the spec: `FinalityProviderStore.UpdateFpStatusFromVotingPower`
is not under `src/` (only its caller `SyncFinalityProviderStatus` is).
Per §4.1 and the `syncChainFpStatusLoop` comment in `app.go`: SLASHED
dominates and never changes; positive voting power makes the FP ACTIVE;
at zero voting power CREATED becomes REGISTERED and ACTIVE becomes
INACTIVE, all other statuses stay.  Status writes go through
`SetFpStatus`.  Returns the (possibly unchanged) status. -/
def UpdateFpStatusFromVotingPower (store : FpStore) (vp : Nat)
    (fp : StoredFinalityProvider) :
    (Except String FinalityProviderStatus) × FpStore :=
  if fp.status = FinalityProviderStatus.SLASHED then
    (Except.ok FinalityProviderStatus.SLASHED, store)
  else if 0 < vp then
    match SetFpStatus store fp.btcPk FinalityProviderStatus.ACTIVE with
    | (Except.error e, s') => (Except.error e, s')
    | (Except.ok _, s') => (Except.ok FinalityProviderStatus.ACTIVE, s')
  else
    match fp.status with
    | FinalityProviderStatus.CREATED =>
      match SetFpStatus store fp.btcPk FinalityProviderStatus.REGISTERED with
      | (Except.error e, s') => (Except.error e, s')
      | (Except.ok _, s') => (Except.ok FinalityProviderStatus.REGISTERED, s')
    | FinalityProviderStatus.ACTIVE =>
      match SetFpStatus store fp.btcPk FinalityProviderStatus.INACTIVE with
      | (Except.error e, s') => (Except.error e, s')
      | (Except.ok _, s') => (Except.ok FinalityProviderStatus.INACTIVE, s')
    | other => (Except.ok other, store)

/-- The per-provider loop of `SyncFinalityProviderStatus` (`app.go`),
iterating over the snapshot `fps` of stored providers.  For each one:
query its voting power at the best block's height and on error silently
`continue`; if an instance for it is already running, record that and
`continue`; otherwise update its status from the voting power (an error
aborts the sync); if the updated record should start, start it (an
error aborts the sync) and record the running instance.  The third
component records which providers were started. -/
def syncLoop (env : ChainEnv) (height : Nat) :
    List StoredFinalityProvider → FpStore → Bool → List Nat →
    (Except String Bool) × FpStore × List Nat
  | [], store, running, starts => (Except.ok running, store, starts)
  | fp :: rest, store, running, starts =>
    match env.queryVotingPower fp.btcPk height with
    | Except.error _ => syncLoop env height rest store running starts
    | Except.ok vp =>
      if env.isRunning fp.btcPk then
        syncLoop env height rest store true starts
      else
        match UpdateFpStatusFromVotingPower store vp fp with
        | (Except.error e, store') => (Except.error e, store', starts)
        | (Except.ok newStatus, store') =>
          if shouldStart { fp with status := newStatus } then
            match env.startFinalityProvider fp.btcPk with
            | Except.error e => (Except.error e, store', starts)
            | Except.ok _ =>
              syncLoop env height rest store' true (starts ++ [fp.btcPk])
          else
            syncLoop env height rest store' running starts

/-- `FinalityProviderApp.SyncFinalityProviderStatus` (`app.go`): query
the best block, read all stored finality providers, and run the
per-provider loop at the best block's height.  Returns whether an
instance is running, the updated store, and the started providers. -/
def SyncFinalityProviderStatus (env : ChainEnv) (store : FpStore) :
    (Except String Bool) × FpStore × List Nat :=
  match env.queryBestBlock with
  | Except.error e => (Except.error e, store, [])
  | Except.ok blk => syncLoop env blk.height store store false []

/-! ### Unjailing -/

/-- The chain-side input of `UnjailFinalityProvider`: the
`ClientController.UnjailFinalityProvider` submission, returning a tx
hash or an error. -/
structure UnjailEnv where
  unjailTx : Nat → Except String String

/-- `FinalityProviderApp.UnjailFinalityProvider` (`app.go`): look the
provider up in the store, send the unjail transaction, and on success
set the stored status to INACTIVE (it will be promoted to ACTIVE by the
next sync if the FP has voting power); return the chain's tx hash. -/
def UnjailFinalityProvider (env : UnjailEnv) (store : FpStore) (pk : Nat) :
    (Except String String) × FpStore :=
  match findFp store pk with
  | none => (Except.error "failed to get finality provider from db", store)
  | some _ =>
    match env.unjailTx pk with
    | Except.error e =>
      (Except.error ("failed to send unjail transaction: " ++ e), store)
    | Except.ok txHash =>
      match SetFpStatus store pk FinalityProviderStatus.INACTIVE with
      | (Except.error e, s') =>
        (Except.error ("failed to update finality-provider status after unjailing: " ++ e), s')
      | (Except.ok _, s') => (Except.ok txHash, s')

/-! ### Registration -/

/-- The response `RegisterFinalityProvider` delivers on success. -/
structure RegisterFinalityProviderResponse where
  txHash : String
deriving DecidableEq, Repr

/-- The external inputs of the registration round trip: parsing the
stored signature and address (`bbntypes.NewBIP340Signature`,
`sdk.AccAddressFromBech32`), marshalling the PoP and the description
in the registration loop, and the
`ClientController.RegisterFinalityProvider` submission. -/
structure RegisterEnv where
  parseSig : List Nat → Except String Unit
  parseAddr : List Nat → Except String Unit
  marshalPop : Except String Unit
  marshalDesc : Except String Unit
  registerTx : Nat → Except String String

/-- `FinalityProviderApp.RegisterFinalityProvider` (`app.go`), composed
with the request's handling in `registrationLoop` and the registered
event's handling in `eventLoop` (the channels serialize the three into
one round trip the caller blocks on): look the provider up; refuse
unless its status is CREATED; parse the stored PoP signature and the
account address; in the registration loop marshal the PoP and the
description and submit the registration transaction; on tx success the
event loop durably sets the stored status to REGISTERED — on a failed
status write it calls `logger.Fatal`, aborting the process, so no
success response is ever delivered — and only then replies with the tx
hash.  The third component records whether the registration transaction
was submitted to the chain. -/
def RegisterFinalityProvider (env : RegisterEnv) (store : FpStore) (pk : Nat) :
    (Except String RegisterFinalityProviderResponse) × FpStore × Bool :=
  match findFp store pk with
  | none => (Except.error "finality provider not found", store, false)
  | some fp =>
    if fp.status ≠ FinalityProviderStatus.CREATED then
      (Except.error "finality-provider is already registered", store, false)
    else
      match env.parseSig fp.popBtcSig with
      | Except.error e => (Except.error e, store, false)
      | Except.ok _ =>
        match env.parseAddr fp.fpAddr with
        | Except.error e => (Except.error e, store, false)
        | Except.ok _ =>
          match env.marshalPop with
          | Except.error e => (Except.error e, store, false)
          | Except.ok _ =>
            match env.marshalDesc with
            | Except.error e => (Except.error e, store, false)
            | Except.ok _ =>
              match env.registerTx pk with
              | Except.error e => (Except.error e, store, true)
              | Except.ok txHash =>
                match SetFpStatus store pk FinalityProviderStatus.REGISTERED with
                | (Except.error e, s') =>
                  (Except.error ("fatal: failed to set finality-provider status to REGISTERED: " ++ e),
                   s', true)
                | (Except.ok _, s') => (Except.ok { txHash := txHash }, s', true)

/-! ### Creation -/

/-- A create request as assembled by `CreateFinalityProvider`
(`app.go`) and handled by `handleCreateFinalityProviderRequest`. -/
structure CreateFinalityProviderRequest where
  keyName : String
  chainID : String
  passPhrase : String
  hdPath : String
  eotsPk : Nat
  description : String
  commission : Int
deriving DecidableEq, Repr

/-- The keyring-side input of the create handler:
`ChainKeyringController.Address` resolving a key name and passphrase to
the account-address bytes. -/
structure CreateEnv where
  keyringAddress : String → String → Except String (List Nat)

/-- Modelled from the spec: `FinalityProviderStore.CreateFinalityProvider`
is not under `src/` (only its caller is).  Per §3, `btc_pk` is a unique
primary key, so creating an existing key fails and changes no state;
a new record starts in status CREATED with `last_voted_height` 0. -/
def storeCreateFinalityProvider (store : FpStore) (fpAddr : List Nat) (btcPk : Nat)
    (description : String) (commission : Int) (keyName chainID : String)
    (popBtcSig : List Nat) : (Except String Unit) × FpStore :=
  match findFp store btcPk with
  | some _ => (Except.error "finality provider already exists", store)
  | none =>
    (Except.ok (),
     store ++ [{ fpAddr := fpAddr, btcPk := btcPk, keyName := keyName,
                 chainID := chainID, description := description,
                 commission := commission, popBtcSig := popBtcSig,
                 status := FinalityProviderStatus.CREATED, lastVotedHeight := 0 }])

/-- `FinalityProviderApp.handleCreateFinalityProviderRequest` (`app.go`):
resolve the chain key to the account address, build the
proof-of-possession through the EOTS manager, persist the new record in
the finality-provider store, and return the freshly read stored
record. -/
def handleCreateFinalityProviderRequest (cp : CryptoPrims) (em : EOTSManagerState)
    (env : CreateEnv) (store : FpStore) (req : CreateFinalityProviderRequest) :
    (Except String StoredFinalityProvider) × FpStore :=
  match env.keyringAddress req.keyName req.passPhrase with
  | Except.error e =>
    (Except.error ("the keyname does not exist, add the key first: " ++ e), store)
  | Except.ok fpAddr =>
    match CreatePop cp em fpAddr req.eotsPk with
    | Except.error e =>
      (Except.error ("failed to create proof-of-possession of the finality-provider: " ++ e),
       store)
    | Except.ok pop =>
      match storeCreateFinalityProvider store fpAddr req.eotsPk req.description
          req.commission req.keyName req.chainID pop.btcSig with
      | (Except.error e, s') =>
        (Except.error ("failed to save finality-provider: " ++ e), s')
      | (Except.ok _, s') =>
        match findFp s' req.eotsPk with
        | none => (Except.error "finality provider not found", s')
        | some storedFp => (Except.ok storedFp, s')

/-! ## Supporting lemmas -/

theorem le_foldl_max_init (a : Nat) (l : List BlockInfo) :
    a ≤ List.foldl (fun m bl => max m bl.height) a l := by
  induction l generalizing a with
  | nil => exact le_refl _
  | cons x xs ih =>
    simp only [List.foldl_cons]
    exact le_trans (le_max_left a x.height) (ih _)

theorem le_maxBatchHeight_of_mem (b : BlockInfo) (l : List BlockInfo)
    (hmem : b ∈ l) : b.height ≤ maxBatchHeight l := by
  unfold maxBatchHeight
  suffices h : ∀ a : Nat, b.height ≤ List.foldl (fun m bl => max m bl.height) a l from h 0
  induction l with
  | nil => cases hmem
  | cons x xs ih =>
    intro a
    simp only [List.foldl_cons]
    rcases List.mem_cons.mp hmem with h | h
    · subst h
      exact le_trans (le_max_right a b.height) (le_foldl_max_init _ xs)
    · exact ih h (max a x.height)

theorem submitBatch_mono (env : SubmitEnv) (s : FpInstanceState)
    (batch : List BlockInfo) :
    s.lastVotedHeight ≤ (SubmitBatchFinalitySigs env s batch).2.lastVotedHeight := by
  unfold SubmitBatchFinalitySigs
  cases hfilt : batch.filter
      (fun b => decide (s.lastVotedHeight < b.height) && env.hasVotingPower b.height) with
  | nil => simp
  | cons b ts =>
    have hb : b ∈ batch.filter
        (fun bl => decide (s.lastVotedHeight < bl.height) && env.hasVotingPower bl.height) := by
      rw [hfilt]; exact List.mem_cons_self _ _
    have hp := List.of_mem_filter hb
    have hlt : s.lastVotedHeight < b.height :=
      of_decide_eq_true ((Bool.and_eq_true _ _).mp hp).1
    have hle : b.height ≤ maxBatchHeight (b :: ts) :=
      le_maxBatchHeight_of_mem _ _ (List.mem_cons_self _ _)
    simp only [List.isEmpty_cons, if_false, Bool.false_eq_true]
    cases htx : env.submitBatchTx (b :: ts) with
    | error e => exact le_refl _
    | ok t =>
      simp only
      omega

theorem findFp_setStatusInStore (s : FpStore) (pk' pk : Nat)
    (st : FinalityProviderStatus) :
    findFp (setStatusInStore s pk' st) pk =
      (findFp s pk).map
        (fun fp => if fp.btcPk == pk' then { fp with status := st } else fp) := by
  unfold findFp setStatusInStore
  rw [List.find?_map]
  have hpred : ((fun fp : StoredFinalityProvider => fp.btcPk == pk) ∘
      (fun fp => if fp.btcPk == pk' then { fp with status := st } else fp)) =
      (fun fp : StoredFinalityProvider => fp.btcPk == pk) := by
    funext fp
    simp only [Function.comp_apply]
    by_cases h : (fp.btcPk == pk') = true
    · rw [if_pos h]
    · rw [if_neg h]
  rw [hpred]

theorem findFp_append_some (s l : FpStore) (pk : Nat) (fp : StoredFinalityProvider)
    (h : findFp s pk = some fp) : findFp (s ++ l) pk = some fp := by
  unfold findFp at h ⊢
  rw [List.find?_append, h]
  rfl

theorem slashed_preserved_setFpStatus (s : FpStore) (pk pk' : Nat)
    (st : FinalityProviderStatus)
    (h : fpStatusInStore s pk = some FinalityProviderStatus.SLASHED) :
    fpStatusInStore (SetFpStatus s pk' st).2 pk = some FinalityProviderStatus.SLASHED := by
  unfold fpStatusInStore at h ⊢
  unfold SetFpStatus
  cases hfp : findFp s pk with
  | none => rw [hfp] at h; simp at h
  | some fp =>
    rw [hfp] at h
    have hst : fp.status = FinalityProviderStatus.SLASHED := by
      simpa using h
    have hfppk : (fp.btcPk == pk) = true := by
      have hfp' := hfp
      unfold findFp at hfp'
      have h2 := List.find?_some hfp'
      simpa using h2
    cases hfind : findFp s pk' with
    | none =>
      simp only [hfind, hfp, Option.map_some']
      exact h
    | some fp' =>
      simp only [hfind]
      by_cases hcond : fp'.status = FinalityProviderStatus.SLASHED ∧
          st ≠ FinalityProviderStatus.SLASHED
      · rw [if_pos hcond]
        simp only [hfp, Option.map_some']
        exact h
      · rw [if_neg hcond]
        simp only [findFp_setStatusInStore, hfp, Option.map_some']
        by_cases heq : (fp.btcPk == pk') = true
        · have h1 : fp.btcPk = pk := eq_of_beq hfppk
          have h2 : fp.btcPk = pk' := eq_of_beq heq
          have hpkeq : pk = pk' := h1 ▸ h2
          rw [← hpkeq] at hfind
          rw [hfp] at hfind
          have hfpeq : fp = fp' := by injection hfind
          have hstfp' : fp'.status = FinalityProviderStatus.SLASHED := hfpeq ▸ hst
          have hstslash : st = FinalityProviderStatus.SLASHED := by
            by_contra hne
            exact hcond ⟨hstfp', hne⟩
          simp [heq, hstslash]
        · simp [heq, hst]

theorem slashed_preserved_update (store : FpStore) (vp : Nat)
    (fp : StoredFinalityProvider) (pk : Nat)
    (h : fpStatusInStore store pk = some FinalityProviderStatus.SLASHED) :
    fpStatusInStore (UpdateFpStatusFromVotingPower store vp fp).2 pk =
      some FinalityProviderStatus.SLASHED := by
  unfold UpdateFpStatusFromVotingPower
  by_cases h1 : fp.status = FinalityProviderStatus.SLASHED
  · rw [if_pos h1]
    exact h
  · rw [if_neg h1]
    by_cases h2 : 0 < vp
    · rw [if_pos h2]
      have hpres := slashed_preserved_setFpStatus store pk fp.btcPk
        FinalityProviderStatus.ACTIVE h
      cases hset : SetFpStatus store fp.btcPk FinalityProviderStatus.ACTIVE with
      | mk r s' =>
        rw [hset] at hpres
        cases r <;> simpa using hpres
    · rw [if_neg h2]
      cases hstatus : fp.status with
      | CREATED =>
        have hpres := slashed_preserved_setFpStatus store pk fp.btcPk
          FinalityProviderStatus.REGISTERED h
        cases hset : SetFpStatus store fp.btcPk FinalityProviderStatus.REGISTERED with
        | mk r s' =>
          rw [hset] at hpres
          cases r <;> simpa using hpres
      | ACTIVE =>
        have hpres := slashed_preserved_setFpStatus store pk fp.btcPk
          FinalityProviderStatus.INACTIVE h
        cases hset : SetFpStatus store fp.btcPk FinalityProviderStatus.INACTIVE with
        | mk r s' =>
          rw [hset] at hpres
          cases r <;> simpa using hpres
      | REGISTERED => exact h
      | INACTIVE => exact h
      | JAILED => exact h
      | SLASHED => exact h

theorem slashed_preserved_syncLoop (env : ChainEnv) (height pk : Nat)
    (fps : List StoredFinalityProvider) :
    ∀ (store : FpStore) (running : Bool) (starts : List Nat),
    fpStatusInStore store pk = some FinalityProviderStatus.SLASHED →
    fpStatusInStore (syncLoop env height fps store running starts).2.1 pk =
      some FinalityProviderStatus.SLASHED := by
  induction fps with
  | nil =>
    intro store running starts h
    simpa [syncLoop] using h
  | cons fp rest ih =>
    intro store running starts h
    unfold syncLoop
    cases hvp : env.queryVotingPower fp.btcPk height with
    | error e =>
      simp only
      exact ih store running starts h
    | ok vp =>
      simp only
      by_cases hrun : env.isRunning fp.btcPk = true
      · rw [if_pos hrun]
        exact ih store true starts h
      · rw [if_neg hrun]
        have hpres := slashed_preserved_update store vp fp pk h
        cases hupd : UpdateFpStatusFromVotingPower store vp fp with
        | mk r store' =>
          rw [hupd] at hpres
          cases r with
          | error e => simpa using hpres
          | ok newStatus =>
            simp only
            by_cases hss : shouldStart { fp with status := newStatus } = true
            · rw [if_pos hss]
              cases hstart : env.startFinalityProvider fp.btcPk with
              | error e => simpa using hpres
              | ok u => exact ih store' true _ hpres
            · rw [if_neg hss]
              exact ih store' running starts hpres

theorem setFpStatus_ok_of_not_slashed (s : FpStore) (pk : Nat)
    (st : FinalityProviderStatus) (e0 : StoredFinalityProvider)
    (hfind : findFp s pk = some e0)
    (hns : e0.status ≠ FinalityProviderStatus.SLASHED) :
    SetFpStatus s pk st = (Except.ok (), setStatusInStore s pk st) := by
  unfold SetFpStatus
  rw [hfind]
  simp only
  rw [if_neg]
  intro hcond
  exact hns hcond.1

theorem setFpStatus_ok_status (s : FpStore) (pk : Nat) (st : FinalityProviderStatus)
    (u : Unit) (h : (SetFpStatus s pk st).1 = Except.ok u) :
    fpStatusInStore (SetFpStatus s pk st).2 pk = some st := by
  unfold SetFpStatus at h ⊢
  cases hfind : findFp s pk with
  | none => rw [hfind] at h; simp at h
  | some fp =>
    rw [hfind] at h
    simp only at h
    simp only
    by_cases hcond : fp.status = FinalityProviderStatus.SLASHED ∧
        st ≠ FinalityProviderStatus.SLASHED
    · rw [if_pos hcond] at h; simp at h
    · rw [if_neg hcond]
      have heqpk : fp.btcPk = pk := by
        have hfind' := hfind
        unfold findFp at hfind'
        have h2 := List.find?_some hfind'
        exact eq_of_beq (by simpa using h2)
      unfold fpStatusInStore
      rw [findFp_setStatusInStore, hfind]
      simp [heqpk]

theorem slashed_preserved_unjail (uenv : UnjailEnv) (store : FpStore) (pk pk' : Nat)
    (h : fpStatusInStore store pk = some FinalityProviderStatus.SLASHED) :
    fpStatusInStore (UnjailFinalityProvider uenv store pk').2 pk =
      some FinalityProviderStatus.SLASHED := by
  unfold UnjailFinalityProvider
  cases hfind : findFp store pk' with
  | none => exact h
  | some fp0 =>
    cases htx : uenv.unjailTx pk' with
    | error e => exact h
    | ok tx =>
      have hpres := slashed_preserved_setFpStatus store pk pk'
        FinalityProviderStatus.INACTIVE h
      cases hset : SetFpStatus store pk' FinalityProviderStatus.INACTIVE with
      | mk r s' =>
        rw [hset] at hpres
        cases r <;> simpa using hpres

theorem slashed_preserved_register (renv : RegisterEnv) (store : FpStore) (pk pk' : Nat)
    (h : fpStatusInStore store pk = some FinalityProviderStatus.SLASHED) :
    fpStatusInStore (RegisterFinalityProvider renv store pk').2.1 pk =
      some FinalityProviderStatus.SLASHED := by
  unfold RegisterFinalityProvider
  cases hfind : findFp store pk' with
  | none => exact h
  | some fp0 =>
    simp only
    by_cases hst : fp0.status ≠ FinalityProviderStatus.CREATED
    · rw [if_pos hst]
      exact h
    · rw [if_neg hst]
      cases hsig : renv.parseSig fp0.popBtcSig with
      | error e => exact h
      | ok u1 =>
        cases haddr : renv.parseAddr fp0.fpAddr with
        | error e => exact h
        | ok u2 =>
          cases hmp : renv.marshalPop with
          | error e => exact h
          | ok u3 =>
            cases hmd : renv.marshalDesc with
            | error e => exact h
            | ok u4 =>
              cases htx : renv.registerTx pk' with
              | error e => exact h
              | ok tx =>
                have hpres := slashed_preserved_setFpStatus store pk pk'
                  FinalityProviderStatus.REGISTERED h
                cases hset : SetFpStatus store pk' FinalityProviderStatus.REGISTERED with
                | mk r s' =>
                  rw [hset] at hpres
                  cases r <;> simpa using hpres

theorem slashed_preserved_create (cp : CryptoPrims) (em : EOTSManagerState)
    (cenv : CreateEnv) (store : FpStore) (req : CreateFinalityProviderRequest)
    (pk : Nat)
    (h : fpStatusInStore store pk = some FinalityProviderStatus.SLASHED) :
    fpStatusInStore (handleCreateFinalityProviderRequest cp em cenv store req).2 pk =
      some FinalityProviderStatus.SLASHED := by
  unfold handleCreateFinalityProviderRequest
  cases hka : cenv.keyringAddress req.keyName req.passPhrase with
  | error e => exact h
  | ok fpAddr =>
    simp only
    cases hpop : CreatePop cp em fpAddr req.eotsPk with
    | error e => exact h
    | ok pop =>
      simp only
      unfold storeCreateFinalityProvider
      cases hex : findFp store req.eotsPk with
      | some fp0 => exact h
      | none =>
        simp only
        unfold fpStatusInStore at h
        cases hfp : findFp store pk with
        | none => rw [hfp] at h; simp at h
        | some fp =>
          rw [hfp] at h
          have happ := findFp_append_some store
            [{ fpAddr := fpAddr, btcPk := req.eotsPk, keyName := req.keyName,
               chainID := req.chainID, description := req.description,
               commission := req.commission, popBtcSig := pop.btcSig,
               status := FinalityProviderStatus.CREATED, lastVotedHeight := 0 }]
            pk fp hfp
          cases hf2 : findFp (store ++
              [{ fpAddr := fpAddr, btcPk := req.eotsPk, keyName := req.keyName,
                 chainID := req.chainID, description := req.description,
                 commission := req.commission, popBtcSig := pop.btcSig,
                 status := FinalityProviderStatus.CREATED, lastVotedHeight := 0 }])
              req.eotsPk with
          | none =>
            unfold fpStatusInStore
            rw [happ]
            exact h
          | some sfp =>
            unfold fpStatusInStore
            rw [happ]
            exact h

theorem findFp_self_of_nodup (store : FpStore)
    (hnd : (store.map (fun fp => fp.btcPk)).Nodup) :
    ∀ fp, fp ∈ store → findFp store fp.btcPk = some fp := by
  induction store with
  | nil => intro fp hmem; cases hmem
  | cons a l ih =>
    intro fp hmem
    rw [List.map_cons, List.nodup_cons] at hnd
    rcases List.mem_cons.mp hmem with h | h
    · subst h
      unfold findFp
      rw [List.find?_cons_of_pos]
      simp
    · have hne : a.btcPk ≠ fp.btcPk := by
        intro heq
        apply hnd.1
        rw [heq]
        exact List.mem_map_of_mem _ h
      unfold findFp
      rw [List.find?_cons_of_neg]
      · exact ih hnd.2 fp h
      · simp [hne]

theorem update_ok_of_entry (store : FpStore) (vp : Nat)
    (fp e0 : StoredFinalityProvider)
    (hfind : findFp store fp.btcPk = some e0) (hst0 : e0.status = fp.status) :
    ∃ ns, (UpdateFpStatusFromVotingPower store vp fp).1 = Except.ok ns := by
  unfold UpdateFpStatusFromVotingPower
  by_cases h1 : fp.status = FinalityProviderStatus.SLASHED
  · rw [if_pos h1]
    exact ⟨_, rfl⟩
  · rw [if_neg h1]
    have hns : e0.status ≠ FinalityProviderStatus.SLASHED := by
      rw [hst0]; exact h1
    by_cases h2 : 0 < vp
    · rw [if_pos h2]
      rw [setFpStatus_ok_of_not_slashed store fp.btcPk FinalityProviderStatus.ACTIVE e0 hfind hns]
      exact ⟨_, rfl⟩
    · rw [if_neg h2]
      cases hstatus : fp.status with
      | CREATED =>
        rw [setFpStatus_ok_of_not_slashed store fp.btcPk
          FinalityProviderStatus.REGISTERED e0 hfind hns]
        exact ⟨_, rfl⟩
      | ACTIVE =>
        rw [setFpStatus_ok_of_not_slashed store fp.btcPk
          FinalityProviderStatus.INACTIVE e0 hfind hns]
        exact ⟨_, rfl⟩
      | REGISTERED => exact ⟨_, rfl⟩
      | INACTIVE => exact ⟨_, rfl⟩
      | JAILED => exact ⟨_, rfl⟩
      | SLASHED => exact ⟨_, rfl⟩

theorem setFpStatus_store_shape (s : FpStore) (pk : Nat)
    (st : FinalityProviderStatus) :
    (SetFpStatus s pk st).2 = s ∨
    (SetFpStatus s pk st).2 = setStatusInStore s pk st := by
  unfold SetFpStatus
  cases hfind : findFp s pk with
  | none => exact Or.inl rfl
  | some fp =>
    simp only
    by_cases hcond : fp.status = FinalityProviderStatus.SLASHED ∧
        st ≠ FinalityProviderStatus.SLASHED
    · rw [if_pos hcond]; exact Or.inl rfl
    · rw [if_neg hcond]; exact Or.inr rfl

theorem update_store_shape (store : FpStore) (vp : Nat) (fp : StoredFinalityProvider) :
    (UpdateFpStatusFromVotingPower store vp fp).2 = store ∨
    ∃ st, (UpdateFpStatusFromVotingPower store vp fp).2 =
      setStatusInStore store fp.btcPk st := by
  unfold UpdateFpStatusFromVotingPower
  by_cases h1 : fp.status = FinalityProviderStatus.SLASHED
  · rw [if_pos h1]; exact Or.inl rfl
  · rw [if_neg h1]
    by_cases h2 : 0 < vp
    · rw [if_pos h2]
      have hsh := setFpStatus_store_shape store fp.btcPk FinalityProviderStatus.ACTIVE
      cases hset : SetFpStatus store fp.btcPk FinalityProviderStatus.ACTIVE with
      | mk r s' =>
        rw [hset] at hsh
        cases r with
        | error e =>
          rcases hsh with hh | hh
          · exact Or.inl hh
          · exact Or.inr ⟨_, hh⟩
        | ok u =>
          rcases hsh with hh | hh
          · exact Or.inl hh
          · exact Or.inr ⟨_, hh⟩
    · rw [if_neg h2]
      cases hstatus : fp.status with
      | CREATED =>
        have hsh := setFpStatus_store_shape store fp.btcPk FinalityProviderStatus.REGISTERED
        cases hset : SetFpStatus store fp.btcPk FinalityProviderStatus.REGISTERED with
        | mk r s' =>
          rw [hset] at hsh
          cases r with
          | error e =>
            rcases hsh with hh | hh
            · exact Or.inl hh
            · exact Or.inr ⟨_, hh⟩
          | ok u =>
            rcases hsh with hh | hh
            · exact Or.inl hh
            · exact Or.inr ⟨_, hh⟩
      | ACTIVE =>
        have hsh := setFpStatus_store_shape store fp.btcPk FinalityProviderStatus.INACTIVE
        cases hset : SetFpStatus store fp.btcPk FinalityProviderStatus.INACTIVE with
        | mk r s' =>
          rw [hset] at hsh
          cases r with
          | error e =>
            rcases hsh with hh | hh
            · exact Or.inl hh
            · exact Or.inr ⟨_, hh⟩
          | ok u =>
            rcases hsh with hh | hh
            · exact Or.inl hh
            · exact Or.inr ⟨_, hh⟩
      | REGISTERED => exact Or.inl rfl
      | INACTIVE => exact Or.inl rfl
      | JAILED => exact Or.inl rfl
      | SLASHED => exact Or.inl rfl

theorem syncLoop_no_abort (env : ChainEnv) (height : Nat)
    (hstart : ∀ pk, env.startFinalityProvider pk = Except.ok ()) :
    ∀ (fps : List StoredFinalityProvider) (store : FpStore) (running : Bool)
      (starts : List Nat),
    (∀ fp, fp ∈ fps → ∃ e0, findFp store fp.btcPk = some e0 ∧ e0.status = fp.status) →
    ((fps.map (fun fp => fp.btcPk)).Nodup) →
    ∃ b, (syncLoop env height fps store running starts).1 = Except.ok b := by
  intro fps
  induction fps with
  | nil =>
    intro store running starts hinv hnd
    exact ⟨running, rfl⟩
  | cons fp rest ih =>
    intro store running starts hinv hnd
    rw [List.map_cons, List.nodup_cons] at hnd
    unfold syncLoop
    cases hvp : env.queryVotingPower fp.btcPk height with
    | error e =>
      exact ih store running starts
        (fun f hf => hinv f (List.mem_cons_of_mem _ hf)) hnd.2
    | ok vp =>
      simp only
      by_cases hrun : env.isRunning fp.btcPk = true
      · rw [if_pos hrun]
        exact ih store true starts
          (fun f hf => hinv f (List.mem_cons_of_mem _ hf)) hnd.2
      · rw [if_neg hrun]
        obtain ⟨e0, hfind0, hst0⟩ := hinv fp (List.mem_cons_self _ _)
        obtain ⟨ns, hns⟩ := update_ok_of_entry store vp fp e0 hfind0 hst0
        have hshape := update_store_shape store vp fp
        cases hupd : UpdateFpStatusFromVotingPower store vp fp with
        | mk r store' =>
          rw [hupd] at hns hshape
          simp only at hns hshape
          subst hns
          simp only
          have hinv' : ∀ f, f ∈ rest →
              ∃ e1, findFp store' f.btcPk = some e1 ∧ e1.status = f.status := by
            intro f hf
            obtain ⟨e1, hfind1, hst1⟩ := hinv f (List.mem_cons_of_mem _ hf)
            rcases hshape with hsame | ⟨st2, hset⟩
            · refine ⟨e1, ?_, hst1⟩
              rw [hsame]
              exact hfind1
            · have hne : f.btcPk ≠ fp.btcPk := by
                intro heq
                apply hnd.1
                rw [← heq]
                exact List.mem_map_of_mem _ hf
              have he1pk : e1.btcPk = f.btcPk := by
                have hfind1' := hfind1
                unfold findFp at hfind1'
                have h2 := List.find?_some hfind1'
                exact eq_of_beq (by simpa using h2)
              refine ⟨e1, ?_, hst1⟩
              rw [hset, findFp_setStatusInStore, hfind1]
              have hbf : (e1.btcPk == fp.btcPk) = false := by
                simp [he1pk]
                exact hne
              simp only [Option.map_some']
              rw [if_neg]
              simp [hbf]
          by_cases hss : shouldStart { fp with status := ns } = true
          · rw [if_pos hss]
            rw [hstart fp.btcPk]
            exact ih store' true (starts ++ [fp.btcPk]) hinv' hnd.2
          · rw [if_neg hss]
            exact ih store' running starts hinv' hnd.2

theorem handleCreate_ok_shape (cp : CryptoPrims) (em : EOTSManagerState)
    (env : CreateEnv) (store : FpStore) (req : CreateFinalityProviderRequest)
    (fp1 : StoredFinalityProvider)
    (hok : (handleCreateFinalityProviderRequest cp em env store req).1 = Except.ok fp1) :
    ∃ fpAddr pop,
      env.keyringAddress req.keyName req.passPhrase = Except.ok fpAddr ∧
      CreatePop cp em fpAddr req.eotsPk = Except.ok pop ∧
      findFp ((handleCreateFinalityProviderRequest cp em env store req).2)
        req.eotsPk = some fp1 := by
  cases hcall : handleCreateFinalityProviderRequest cp em env store req with
  | mk r s1 =>
    rw [hcall] at hok
    simp only at hok
    subst hok
    unfold handleCreateFinalityProviderRequest at hcall
    cases hka : env.keyringAddress req.keyName req.passPhrase with
    | error e => rw [hka] at hcall; simp at hcall
    | ok fpAddr =>
      rw [hka] at hcall
      simp only at hcall
      cases hpop : CreatePop cp em fpAddr req.eotsPk with
      | error e => rw [hpop] at hcall; simp at hcall
      | ok pop =>
        rw [hpop] at hcall
        simp only at hcall
        cases hsc : storeCreateFinalityProvider store fpAddr req.eotsPk
            req.description req.commission req.keyName req.chainID pop.btcSig with
        | mk r2 s2 =>
          rw [hsc] at hcall
          cases r2 with
          | error e => simp at hcall
          | ok u =>
            simp only at hcall
            cases hff : findFp s2 req.eotsPk with
            | none => rw [hff] at hcall; simp at hcall
            | some sfp =>
              rw [hff] at hcall
              simp only at hcall
              have hsfp : sfp = fp1 := by
                have h1 := congrArg Prod.fst hcall
                simpa using h1
              have hs2 : s2 = s1 := by
                have h1 := congrArg Prod.snd hcall
                simpa using h1
              subst hsfp
              subst hs2
              exact ⟨fpAddr, pop, rfl, hpop, hff⟩

theorem handleCreate_duplicate_errors (cp : CryptoPrims) (em : EOTSManagerState)
    (env : CreateEnv) (s1 : FpStore) (req : CreateFinalityProviderRequest)
    (fpAddr : List Nat) (pop : ProofOfPossessionBTC) (fpx : StoredFinalityProvider)
    (hka : env.keyringAddress req.keyName req.passPhrase = Except.ok fpAddr)
    (hpop : CreatePop cp em fpAddr req.eotsPk = Except.ok pop)
    (hfound : findFp s1 req.eotsPk = some fpx) :
    handleCreateFinalityProviderRequest cp em env s1 req =
      (Except.error "failed to save finality-provider: finality provider already exists",
       s1) := by
  unfold handleCreateFinalityProviderRequest storeCreateFinalityProvider
  rw [hka]
  simp only
  rw [hpop]
  simp only
  rw [hfound]
  rfl

/-! ## Claims -/

/-- Claim C2: for every finality provider, `last_voted_height` is
monotonically non-decreasing across the whole trace: it starts at 0;
a successful batch submission via `SubmitBatchFinalitySigs` updates it
to the maximum height of the submitted batch before the next batch is
accepted; and no operation of the signing loop ever decreases it. -/
theorem c2_last_voted_height_monotone (env : SubmitEnv) (s : FpInstanceState)
    (batch : List BlockInfo) (batches : List (List BlockInfo)) :
    initialFpInstanceState.lastVotedHeight = 0 ∧
    s.lastVotedHeight ≤ (SubmitBatchFinalitySigs env s batch).2.lastVotedHeight ∧
    (∀ tx, (SubmitBatchFinalitySigs env s batch).1 = Except.ok (some tx) →
      (SubmitBatchFinalitySigs env s batch).2.lastVotedHeight =
        maxBatchHeight (batch.filter
          (fun b => decide (s.lastVotedHeight < b.height) && env.hasVotingPower b.height))) ∧
    s.lastVotedHeight ≤ (runFinalityTrace env s batches).lastVotedHeight := by
  refine ⟨rfl, submitBatch_mono env s batch, ?_, ?_⟩
  · intro tx htx
    unfold SubmitBatchFinalitySigs at htx ⊢
    set targets := batch.filter
      (fun b => decide (s.lastVotedHeight < b.height) && env.hasVotingPower b.height)
    by_cases hemp : targets.isEmpty
    · simp [hemp] at htx
    · simp only [hemp, if_false] at htx ⊢
      cases henv : env.submitBatchTx targets with
      | error e => simp [henv] at htx
      | ok t => simp [henv]
  · induction batches generalizing s with
    | nil => exact le_refl _
    | cons b bs ih =>
      calc s.lastVotedHeight
          ≤ (SubmitBatchFinalitySigs env s b).2.lastVotedHeight :=
            submitBatch_mono env s b
        _ ≤ _ := ih _

/-- Claim C2 witness: the theorem applied at a concrete trace, its
hypothesis (a successful submission) discharged by evaluation. -/
theorem c2_last_voted_height_monotone_witness :
    (SubmitBatchFinalitySigs
        { hasVotingPower := fun _ => true, submitBatchTx := fun _ => Except.ok "tx1" }
        initialFpInstanceState [⟨102, [1]⟩]).2.lastVotedHeight = 102 := by
  have h := (c2_last_voted_height_monotone
    { hasVotingPower := fun _ => true, submitBatchTx := fun _ => Except.ok "tx1" }
    initialFpInstanceState [⟨102, [1]⟩] []).2.2.1 "tx1" (by rfl)
  simpa using h

/-- Claim C7: `CreatePop` produces the bit-exact proof-of-possession:
`h = SHA256(fp_addr bytes)`, `btc_sig = BIP340_sign(sk_btc, h)` obtained
from the EOTS manager (the secret key never leaves the manager), the
signature type is BIP-340, and the signature verifies under the x-only
`btc_pk`.  Stated for every primitive family satisfying BIP-340
correctness. -/
theorem c7_create_pop_bit_exact (cp : CryptoPrims) (em : EOTSManagerState)
    (fpAddress : List Nat) (pk sk : Nat)
    (hkey : em.keys.find? (fun kv => kv.1 == pk) = some (pk, sk))
    (hverify : ∀ k m, cp.bip340Verify (cp.pkOfSk k) m (cp.bip340Sign k m) = true)
    (hpk : cp.pkOfSk sk = pk) :
    CreatePop cp em fpAddress pk =
      Except.ok { btcSigTypeIsBIP340 := true,
                  btcSig := cp.bip340Sign sk (cp.sha256 fpAddress) } ∧
    cp.bip340Verify pk (cp.sha256 fpAddress)
      (cp.bip340Sign sk (cp.sha256 fpAddress)) = true := by
  constructor
  · unfold CreatePop SignSchnorrSig
    simp [hkey]
  · have := hverify sk (cp.sha256 fpAddress)
    rwa [hpk] at this

/-- Claim C7 witness: the theorem applied to a concrete primitive family
(identity hash, `sign sk m = sk :: m`, verification by equality) and a
manager holding one key. -/
theorem c7_create_pop_bit_exact_witness :
    CreatePop
      { sha256 := fun m => m, bip340Sign := fun k m => k :: m,
        bip340Verify := fun p m s => s == p :: m, pkOfSk := fun k => k }
      { keys := [(5, 5)] } [1, 2] 5 =
      Except.ok { btcSigTypeIsBIP340 := true, btcSig := [5, 1, 2] } := by
  have h := c7_create_pop_bit_exact
    { sha256 := fun m => m, bip340Sign := fun k m => k :: m,
      bip340Verify := fun p m s => s == p :: m, pkOfSk := fun k => k }
    { keys := [(5, 5)] } [1, 2] 5 5 (by rfl)
    (fun k m => by simp) (by rfl)
  exact h.1

/-- Claim C8, amended: `Start` and `Stop` are idempotent in effect.  A
second `Start` is a no-op returning `nil`, the same as the first call's
result (which is always `nil`).  A second `Stop` is a no-op — no second
shutdown is performed, no loops are re-spawned — and returns `nil`
regardless of the first call's result. -/
theorem c8_start_stop_idempotent_amended (l : AppLifecycle)
    (env1 env2 : StopEnv) :
    (AppStart l).1 = none ∧
    AppStart (AppStart l).2 = (none, (AppStart l).2) ∧
    AppStop env2 (AppStop env1 l).2 = (none, (AppStop env1 l).2) := by
  refine ⟨?_, ?_, ?_⟩
  · unfold AppStart
    by_cases h : l.startDone <;> simp [h]
  · unfold AppStart
    by_cases h : l.startDone <;> simp [h]
  · have hdone : (AppStop env1 l).2.stopDone = true := by
      unfold AppStop
      cases h : l.stopDone with
      | true => simp [h]
      | false =>
        simp only [h, Bool.false_eq_true, if_false]
        cases env1.fpManagerStop with
        | error e => rfl
        | ok a =>
          cases env1.eotsManagerClose with
          | error e => rfl
          | ok a => rfl
    generalize (AppStop env1 l).2 = l₂ at hdone ⊢
    unfold AppStop
    simp [hdone]

/-- Claim C8 counterexample: with a failing `fpManager.Stop`, the first
`Stop` returns that error while the second returns `nil`, so the second
call does not return the first call's result. -/
theorem c8_second_stop_result_differs :
    (AppStop { fpManagerStop := Except.error "manager stop failed",
               eotsManagerClose := Except.ok () }
       { startDone := true, stopDone := false, loopsSpawned := 4,
         quitClosed := false, shutdownsPerformed := 0 }).1 =
      some "manager stop failed" ∧
    (AppStop { fpManagerStop := Except.error "manager stop failed",
               eotsManagerClose := Except.ok () }
       (AppStop { fpManagerStop := Except.error "manager stop failed",
                  eotsManagerClose := Except.ok () }
          { startDone := true, stopDone := false, loopsSpawned := 4,
            quitClosed := false, shutdownsPerformed := 0 }).2).1 = none ∧
    some "manager stop failed" ≠ (none : Option String) := by
  refine ⟨rfl, rfl, by simp⟩

/-- Claim C10: `syncChainFpStatusLoop` exits permanently as soon as
`SyncFinalityProviderStatus` reports a running instance: the tick that
reports one performs the last sync, no events after it cause another
sync; a tick that reports none syncs once and continues; the quit
signal exits without syncing. -/
theorem c10_sync_loop_exits_on_running (evs rest : List SyncLoopEvent) :
    syncChainFpStatusLoopSyncs (SyncLoopEvent.tick true :: evs) = 1 ∧
    syncChainFpStatusLoopSyncs (SyncLoopEvent.tick false :: evs) =
      1 + syncChainFpStatusLoopSyncs evs ∧
    syncChainFpStatusLoopSyncs (SyncLoopEvent.quit :: rest) = 0 := by
  refine ⟨?_, ?_, rfl⟩ <;> simp [syncChainFpStatusLoopSyncs]

/-- Claim C1: SLASHED is a terminal (absorbing) status.  For a stored
finality provider whose status is SLASHED, no status write of the app —
a direct store status write, a voting-power status update, a status
sync, an unjail, a registration round trip, or a create request —
ever changes its stored status to any other value, even when a later
observation reports positive voting power (the sync queries voting
power through `senv` and the SLASHED guard ignores it). -/
theorem c1_slashed_terminal (store : FpStore) (pk : Nat)
    (fp : StoredFinalityProvider)
    (hfind : findFp store pk = some fp)
    (hslashed : fp.status = FinalityProviderStatus.SLASHED)
    (pk' : Nat) (st : FinalityProviderStatus) (vp : Nat)
    (fp0 : StoredFinalityProvider) (uenv : UnjailEnv) (renv : RegisterEnv)
    (cenv : CreateEnv) (cp : CryptoPrims) (em : EOTSManagerState)
    (req : CreateFinalityProviderRequest) (senv : ChainEnv) :
    fpStatusInStore (SetFpStatus store pk' st).2 pk =
      some FinalityProviderStatus.SLASHED ∧
    fpStatusInStore (UpdateFpStatusFromVotingPower store vp fp0).2 pk =
      some FinalityProviderStatus.SLASHED ∧
    fpStatusInStore (UnjailFinalityProvider uenv store pk').2 pk =
      some FinalityProviderStatus.SLASHED ∧
    fpStatusInStore (RegisterFinalityProvider renv store pk').2.1 pk =
      some FinalityProviderStatus.SLASHED ∧
    fpStatusInStore (handleCreateFinalityProviderRequest cp em cenv store req).2 pk =
      some FinalityProviderStatus.SLASHED ∧
    fpStatusInStore (SyncFinalityProviderStatus senv store).2.1 pk =
      some FinalityProviderStatus.SLASHED := by
  have h : fpStatusInStore store pk = some FinalityProviderStatus.SLASHED := by
    unfold fpStatusInStore
    rw [hfind]
    simp [hslashed]
  refine ⟨slashed_preserved_setFpStatus store pk pk' st h,
          slashed_preserved_update store vp fp0 pk h,
          slashed_preserved_unjail uenv store pk pk' h,
          slashed_preserved_register renv store pk pk' h,
          slashed_preserved_create cp em cenv store req pk h, ?_⟩
  unfold SyncFinalityProviderStatus
  cases hbb : senv.queryBestBlock with
  | error e => exact h
  | ok blk => exact slashed_preserved_syncLoop senv blk.height pk store store false [] h

/-- Claim C1 witness: a slashed provider stays SLASHED through a
concrete unjail (whose chain transaction succeeds) and through a
concrete sync that reports voting power 1 and slashed = false. -/
theorem c1_slashed_terminal_witness :
    fpStatusInStore (UnjailFinalityProvider ⟨fun _ => Except.ok "0xDE"⟩
        [⟨[1], 1, "k", "c", "d", 0, [9], FinalityProviderStatus.SLASHED, 0⟩] 1).2 1 =
      some FinalityProviderStatus.SLASHED ∧
    fpStatusInStore (SyncFinalityProviderStatus
        ⟨Except.ok ⟨100, []⟩, fun _ _ => Except.ok 1, fun _ => false,
         fun _ => Except.ok ()⟩
        [⟨[1], 1, "k", "c", "d", 0, [9], FinalityProviderStatus.SLASHED, 0⟩]).2.1 1 =
      some FinalityProviderStatus.SLASHED := by
  have h := c1_slashed_terminal
    [⟨[1], 1, "k", "c", "d", 0, [9], FinalityProviderStatus.SLASHED, 0⟩] 1
    ⟨[1], 1, "k", "c", "d", 0, [9], FinalityProviderStatus.SLASHED, 0⟩ rfl rfl
    1 FinalityProviderStatus.INACTIVE 1
    ⟨[1], 1, "k", "c", "d", 0, [9], FinalityProviderStatus.SLASHED, 0⟩
    ⟨fun _ => Except.ok "0xDE"⟩
    ⟨fun _ => Except.ok (), fun _ => Except.ok (), Except.ok (), Except.ok (),
     fun _ => Except.ok "0xAB"⟩
    ⟨fun _ _ => Except.ok [1, 2]⟩
    ⟨fun m => m, fun k m => k :: m, fun p m s => s == p :: m, fun k => k⟩
    ⟨[(5, 5)]⟩ ⟨"key", "chain", "", "", 5, "desc", 0⟩
    ⟨Except.ok ⟨100, []⟩, fun _ _ => Except.ok 1, fun _ => false,
     fun _ => Except.ok ()⟩
  exact ⟨h.2.2.1, h.2.2.2.2.2⟩

/-- Claim C3 counterexample: for a stored finality provider whose status
is SLASHED, the unjail transaction submission succeeds on-chain
(`unjailTx` returns the tx hash) yet `UnjailFinalityProvider` does not
set the stored status to INACTIVE and does not return the tx hash: the
store's status write refuses the transition out of SLASHED, so the call
errors and the status stays SLASHED — contradicting the claim's
unconditional success behaviour for every stored provider. -/
theorem c3_unjail_counterexample :
    (UnjailFinalityProvider ⟨fun _ => Except.ok "0xDE"⟩
        [⟨[1], 1, "k", "c", "d", 0, [9], FinalityProviderStatus.SLASHED, 0⟩] 1).1 =
      Except.error
        "failed to update finality-provider status after unjailing: cannot transition out of SLASHED" ∧
    fpStatusInStore (UnjailFinalityProvider ⟨fun _ => Except.ok "0xDE"⟩
        [⟨[1], 1, "k", "c", "d", 0, [9], FinalityProviderStatus.SLASHED, 0⟩] 1).2 1 =
      some FinalityProviderStatus.SLASHED := by
  exact ⟨rfl, rfl⟩

/-- Claim C3, amended: for every stored finality provider whose status
is not SLASHED, `UnjailFinalityProvider` submits an unjail transaction
via the client controller; if the submission succeeds it sets the stored
status to INACTIVE and returns the chain's tx hash, and if the
submission (or the initial store lookup) fails it returns an error and
leaves the stored status unchanged.  (For a SLASHED provider the status
write refuses the transition and the call errors with the status
unchanged.) -/
theorem c3_unjail_amended (env : UnjailEnv) (store : FpStore) (pk : Nat) :
    (findFp store pk = none →
      UnjailFinalityProvider env store pk =
        (Except.error "failed to get finality provider from db", store)) ∧
    (∀ fp, findFp store pk = some fp →
      fp.status ≠ FinalityProviderStatus.SLASHED →
      ((∀ e, env.unjailTx pk = Except.error e →
        UnjailFinalityProvider env store pk =
          (Except.error ("failed to send unjail transaction: " ++ e), store)) ∧
      (∀ tx, env.unjailTx pk = Except.ok tx →
        UnjailFinalityProvider env store pk =
          (Except.ok tx, setStatusInStore store pk FinalityProviderStatus.INACTIVE) ∧
        fpStatusInStore (UnjailFinalityProvider env store pk).2 pk =
          some FinalityProviderStatus.INACTIVE))) := by
  constructor
  · intro hnone
    unfold UnjailFinalityProvider
    rw [hnone]
  · intro fp hfind hns
    have hset := setFpStatus_ok_of_not_slashed store pk
      FinalityProviderStatus.INACTIVE fp hfind hns
    constructor
    · intro e htx
      unfold UnjailFinalityProvider
      rw [hfind]
      simp only
      rw [htx]
    · intro tx htx
      have hmain : UnjailFinalityProvider env store pk =
          (Except.ok tx, setStatusInStore store pk FinalityProviderStatus.INACTIVE) := by
        unfold UnjailFinalityProvider
        rw [hfind]
        simp only
        rw [htx]
        simp only
        rw [hset]
      refine ⟨hmain, ?_⟩
      have hstat := setFpStatus_ok_status store pk
        FinalityProviderStatus.INACTIVE () (by rw [hset])
      rw [hset] at hstat
      rw [hmain]
      exact hstat

/-- Claim C3 witness: the amended theorem applied to a concrete JAILED
provider whose unjail transaction succeeds with tx hash `0xDE`. -/
theorem c3_unjail_amended_witness :
    UnjailFinalityProvider ⟨fun _ => Except.ok "0xDE"⟩
        [⟨[1], 1, "k", "c", "d", 0, [9], FinalityProviderStatus.JAILED, 0⟩] 1 =
      (Except.ok "0xDE",
       [⟨[1], 1, "k", "c", "d", 0, [9], FinalityProviderStatus.INACTIVE, 0⟩]) := by
  have h := ((c3_unjail_amended ⟨fun _ => Except.ok "0xDE"⟩
      [⟨[1], 1, "k", "c", "d", 0, [9], FinalityProviderStatus.JAILED, 0⟩] 1).2
      ⟨[1], 1, "k", "c", "d", 0, [9], FinalityProviderStatus.JAILED, 0⟩ rfl
      (by decide)).2 "0xDE" rfl
  rw [h.1]
  rfl

/-- Claim C4: registration happens only out of the CREATED status.  For
every stored finality provider whose status is not CREATED,
`RegisterFinalityProvider` returns the already-registered error without
submitting a registration transaction (the submission flag is `false`)
and without touching the store; and the stored status becomes
REGISTERED only when the registration transaction succeeded. -/
theorem c4_register_only_from_created (env : RegisterEnv) (store : FpStore)
    (pk : Nat) :
    (∀ fp, findFp store pk = some fp →
      fp.status ≠ FinalityProviderStatus.CREATED →
      RegisterFinalityProvider env store pk =
        (Except.error "finality-provider is already registered", store, false)) ∧
    (fpStatusInStore (RegisterFinalityProvider env store pk).2.1 pk =
        some FinalityProviderStatus.REGISTERED →
      fpStatusInStore store pk = some FinalityProviderStatus.REGISTERED ∨
      ∃ tx, env.registerTx pk = Except.ok tx) := by
  constructor
  · intro fp hfind hne
    unfold RegisterFinalityProvider
    rw [hfind]
    simp only
    rw [if_pos hne]
  · intro hreg
    unfold RegisterFinalityProvider at hreg
    cases hfind : findFp store pk with
    | none =>
      rw [hfind] at hreg
      exact Or.inl hreg
    | some fp =>
      rw [hfind] at hreg
      simp only at hreg
      by_cases hst : fp.status ≠ FinalityProviderStatus.CREATED
      · rw [if_pos hst] at hreg
        exact Or.inl hreg
      · rw [if_neg hst] at hreg
        cases hsig : env.parseSig fp.popBtcSig with
        | error e => rw [hsig] at hreg; exact Or.inl hreg
        | ok u1 =>
          rw [hsig] at hreg
          simp only at hreg
          cases haddr : env.parseAddr fp.fpAddr with
          | error e => rw [haddr] at hreg; exact Or.inl hreg
          | ok u2 =>
            rw [haddr] at hreg
            simp only at hreg
            cases hmp : env.marshalPop with
            | error e => rw [hmp] at hreg; exact Or.inl hreg
            | ok u3 =>
              rw [hmp] at hreg
              simp only at hreg
              cases hmd : env.marshalDesc with
              | error e => rw [hmd] at hreg; exact Or.inl hreg
              | ok u4 =>
                rw [hmd] at hreg
                simp only at hreg
                cases htx : env.registerTx pk with
                | error e => rw [htx] at hreg; exact Or.inl hreg
                | ok tx => exact Or.inr ⟨tx, rfl⟩

/-- Claim C4 witness: the theorem applied to a concrete provider whose
status is already REGISTERED: the call returns the already-registered
error, the store is unchanged, and no transaction was submitted. -/
theorem c4_register_only_from_created_witness :
    RegisterFinalityProvider
        ⟨fun _ => Except.ok (), fun _ => Except.ok (), Except.ok (), Except.ok (),
         fun _ => Except.ok "0xAB"⟩
        [⟨[1], 1, "k", "c", "d", 0, [9], FinalityProviderStatus.REGISTERED, 0⟩] 1 =
      (Except.error "finality-provider is already registered",
       [⟨[1], 1, "k", "c", "d", 0, [9], FinalityProviderStatus.REGISTERED, 0⟩],
       false) := by
  exact (c4_register_only_from_created
      ⟨fun _ => Except.ok (), fun _ => Except.ok (), Except.ok (), Except.ok (),
       fun _ => Except.ok "0xAB"⟩
      [⟨[1], 1, "k", "c", "d", 0, [9], FinalityProviderStatus.REGISTERED, 0⟩] 1).1
    ⟨[1], 1, "k", "c", "d", 0, [9], FinalityProviderStatus.REGISTERED, 0⟩ rfl
    (by decide)

/-- Claim C5: when the registration transaction succeeds, the stored
status of the finality provider is durably set to REGISTERED before the
success response carrying the tx hash is delivered to the caller of
`RegisterFinalityProvider` (on a failed status write the event loop
aborts fatally and no success response is delivered), so a caller that
observes a successful registration response observes stored status
REGISTERED. -/
theorem c5_registered_before_response (env : RegisterEnv) (store : FpStore)
    (pk : Nat) (resp : RegisterFinalityProviderResponse)
    (hok : (RegisterFinalityProvider env store pk).1 = Except.ok resp) :
    fpStatusInStore (RegisterFinalityProvider env store pk).2.1 pk =
      some FinalityProviderStatus.REGISTERED := by
  unfold RegisterFinalityProvider at hok ⊢
  cases hfind : findFp store pk with
  | none => rw [hfind] at hok; simp at hok
  | some fp =>
    rw [hfind] at hok
    simp only at hok
    simp only
    by_cases hst : fp.status ≠ FinalityProviderStatus.CREATED
    · rw [if_pos hst] at hok; simp at hok
    · rw [if_neg hst] at hok
      rw [if_neg hst]
      cases hsig : env.parseSig fp.popBtcSig with
      | error e => rw [hsig] at hok; simp at hok
      | ok u1 =>
        rw [hsig] at hok
        simp only at hok
        simp only
        cases haddr : env.parseAddr fp.fpAddr with
        | error e => rw [haddr] at hok; simp at hok
        | ok u2 =>
          rw [haddr] at hok
          simp only at hok
          simp only
          cases hmp : env.marshalPop with
          | error e => rw [hmp] at hok; simp at hok
          | ok u3 =>
            rw [hmp] at hok
            simp only at hok
            simp only
            cases hmd : env.marshalDesc with
            | error e => rw [hmd] at hok; simp at hok
            | ok u4 =>
              rw [hmd] at hok
              simp only at hok
              simp only
              cases htx : env.registerTx pk with
              | error e => rw [htx] at hok; simp at hok
              | ok tx =>
                rw [htx] at hok
                simp only at hok
                simp only
                cases hset : SetFpStatus store pk FinalityProviderStatus.REGISTERED with
                | mk r s2 =>
                  rw [hset] at hok
                  cases r with
                  | error e => simp at hok
                  | ok u =>
                    have hstat := setFpStatus_ok_status store pk
                      FinalityProviderStatus.REGISTERED u (by rw [hset])
                    rw [hset] at hstat
                    exact hstat

/-- Claim C5 witness: the theorem applied to a concrete CREATED provider
whose registration transaction succeeds: the stored status after the
successful response is REGISTERED. -/
theorem c5_registered_before_response_witness :
    fpStatusInStore (RegisterFinalityProvider
        ⟨fun _ => Except.ok (), fun _ => Except.ok (), Except.ok (), Except.ok (),
         fun _ => Except.ok "0xAB"⟩
        [⟨[1], 1, "k", "c", "d", 0, [9], FinalityProviderStatus.CREATED, 0⟩] 1).2.1 1 =
      some FinalityProviderStatus.REGISTERED := by
  exact c5_registered_before_response
    ⟨fun _ => Except.ok (), fun _ => Except.ok (), Except.ok (), Except.ok (),
     fun _ => Except.ok "0xAB"⟩
    [⟨[1], 1, "k", "c", "d", 0, [9], FinalityProviderStatus.CREATED, 0⟩] 1
    ⟨"0xAB"⟩ rfl

/-- Claim C6: creating a finality provider twice with the same EOTS
public key returns an error on the second call (`btc_pk` is the unique
primary key of the store), the second call changes no state, and the
persisted record after the second call is the record created by the
first call. -/
theorem c6_create_fp_unique (cp : CryptoPrims) (em : EOTSManagerState)
    (env : CreateEnv) (store : FpStore) (req : CreateFinalityProviderRequest)
    (fp1 : StoredFinalityProvider)
    (hok : (handleCreateFinalityProviderRequest cp em env store req).1 =
      Except.ok fp1) :
    (handleCreateFinalityProviderRequest cp em env
        (handleCreateFinalityProviderRequest cp em env store req).2 req).1 =
      Except.error "failed to save finality-provider: finality provider already exists" ∧
    (handleCreateFinalityProviderRequest cp em env
        (handleCreateFinalityProviderRequest cp em env store req).2 req).2 =
      (handleCreateFinalityProviderRequest cp em env store req).2 ∧
    findFp ((handleCreateFinalityProviderRequest cp em env store req).2)
      req.eotsPk = some fp1 := by
  obtain ⟨fpAddr, pop, hka, hpop, hff⟩ :=
    handleCreate_ok_shape cp em env store req fp1 hok
  have hdup := handleCreate_duplicate_errors cp em env
    (handleCreateFinalityProviderRequest cp em env store req).2 req fpAddr pop fp1
    hka hpop hff
  rw [hdup]
  exact ⟨rfl, rfl, hff⟩

/-- Claim C6 witness: the theorem applied to a concrete request against
an empty store; the first create succeeds and the second errors. -/
theorem c6_create_fp_unique_witness :
    (handleCreateFinalityProviderRequest
        ⟨fun m => m, fun k m => k :: m, fun p m s => s == p :: m, fun k => k⟩
        ⟨[(5, 5)]⟩ ⟨fun _ _ => Except.ok [1, 2]⟩
        (handleCreateFinalityProviderRequest
          ⟨fun m => m, fun k m => k :: m, fun p m s => s == p :: m, fun k => k⟩
          ⟨[(5, 5)]⟩ ⟨fun _ _ => Except.ok [1, 2]⟩ []
          ⟨"key", "chain", "", "", 5, "desc", 0⟩).2
        ⟨"key", "chain", "", "", 5, "desc", 0⟩).1 =
      Except.error "failed to save finality-provider: finality provider already exists" := by
  exact (c6_create_fp_unique
    ⟨fun m => m, fun k m => k :: m, fun p m s => s == p :: m, fun k => k⟩
    ⟨[(5, 5)]⟩ ⟨fun _ _ => Except.ok [1, 2]⟩ []
    ⟨"key", "chain", "", "", 5, "desc", 0⟩
    ⟨[1, 2], 5, "key", "chain", "desc", 0, [5, 1, 2],
     FinalityProviderStatus.CREATED, 0⟩ rfl).1

/-- Claim C9 counterexample: a sync in which the best-block query
succeeds and the per-provider status update succeeds (the store ends up
with the provider promoted to ACTIVE) nevertheless aborts with an
error, because starting the eligible provider instance fails — so a
failure of `QueryBestBlock` or of the store status update is not the
only way the sync aborts with an error. -/
theorem c9_abort_on_start_failure_counterexample :
    SyncFinalityProviderStatus
        ⟨Except.ok ⟨100, []⟩, fun _ _ => Except.ok 1, fun _ => false,
         fun _ => Except.error "failed to start the finality provider instance"⟩
        [⟨[1], 1, "k", "c", "d", 0, [9], FinalityProviderStatus.REGISTERED, 0⟩] =
      (Except.error "failed to start the finality provider instance",
       [⟨[1], 1, "k", "c", "d", 0, [9], FinalityProviderStatus.ACTIVE, 0⟩], []) ∧
    (⟨Except.ok ⟨100, []⟩, fun _ _ => Except.ok 1, fun _ => false,
      fun _ => Except.error "failed to start the finality provider instance"⟩ :
        ChainEnv).queryBestBlock = Except.ok ⟨100, []⟩ := by
  exact ⟨rfl, rfl⟩

/-- Claim C9, amended: in `SyncFinalityProviderStatus`, when the
voting-power query fails for one stored finality provider, that
provider is silently skipped — the sync continues over the remaining
providers exactly as if the failed one were absent: its status is not
updated, it is not started, and no error is recorded — and the sync can
still return `(fpInstanceRunning, nil)`; the whole sync aborts with an
error only when `QueryBestBlock` fails, a store status update fails, or
starting an eligible provider instance fails (in particular, when the
best-block query succeeds and every instance start succeeds, the sync
returns without error). -/
theorem c9_vp_failure_skips_provider_amended (env : ChainEnv) (height : Nat)
    (fp : StoredFinalityProvider) (rest : List StoredFinalityProvider)
    (store : FpStore) (running : Bool) (starts : List Nat) (e : String)
    (blk : BlockInfo) :
    (env.queryVotingPower fp.btcPk height = Except.error e →
      syncLoop env height (fp :: rest) store running starts =
        syncLoop env height rest store running starts) ∧
    (env.queryBestBlock = Except.error e →
      SyncFinalityProviderStatus env store = (Except.error e, store, [])) ∧
    (env.queryBestBlock = Except.ok blk →
      (∀ pk, env.startFinalityProvider pk = Except.ok ()) →
      (store.map (fun fp2 => fp2.btcPk)).Nodup →
      ∃ b, (SyncFinalityProviderStatus env store).1 = Except.ok b) := by
  refine ⟨?_, ?_, ?_⟩
  · intro hvp
    conv_lhs => unfold syncLoop
    rw [hvp]
  · intro hbb
    unfold SyncFinalityProviderStatus
    rw [hbb]
  · intro hbb hstart hnd
    unfold SyncFinalityProviderStatus
    rw [hbb]
    simp only
    exact syncLoop_no_abort env blk.height hstart store store false []
      (fun f hf => ⟨f, findFp_self_of_nodup store hnd f hf, rfl⟩) hnd

/-- Claim C9 witness: the amended theorem applied to a concrete
environment in which the voting-power query errors for the first
provider and succeeds for the second: the first is skipped and the sync
still returns without error. -/
theorem c9_vp_failure_skips_provider_amended_witness :
    syncLoop
        ⟨Except.ok ⟨100, []⟩,
         fun pk _ => if pk = 1 then Except.error "rpc unavailable" else Except.ok 1,
         fun _ => false, fun _ => Except.ok ()⟩ 100
        [⟨[1], 1, "k", "c", "d", 0, [9], FinalityProviderStatus.REGISTERED, 0⟩,
         ⟨[2], 2, "k", "c", "d", 0, [9], FinalityProviderStatus.REGISTERED, 0⟩]
        [⟨[1], 1, "k", "c", "d", 0, [9], FinalityProviderStatus.REGISTERED, 0⟩,
         ⟨[2], 2, "k", "c", "d", 0, [9], FinalityProviderStatus.REGISTERED, 0⟩]
        false [] =
      syncLoop
        ⟨Except.ok ⟨100, []⟩,
         fun pk _ => if pk = 1 then Except.error "rpc unavailable" else Except.ok 1,
         fun _ => false, fun _ => Except.ok ()⟩ 100
        [⟨[2], 2, "k", "c", "d", 0, [9], FinalityProviderStatus.REGISTERED, 0⟩]
        [⟨[1], 1, "k", "c", "d", 0, [9], FinalityProviderStatus.REGISTERED, 0⟩,
         ⟨[2], 2, "k", "c", "d", 0, [9], FinalityProviderStatus.REGISTERED, 0⟩]
        false [] ∧
    ∃ b, (SyncFinalityProviderStatus
        ⟨Except.ok ⟨100, []⟩,
         fun pk _ => if pk = 1 then Except.error "rpc unavailable" else Except.ok 1,
         fun _ => false, fun _ => Except.ok ()⟩
        [⟨[1], 1, "k", "c", "d", 0, [9], FinalityProviderStatus.REGISTERED, 0⟩,
         ⟨[2], 2, "k", "c", "d", 0, [9], FinalityProviderStatus.REGISTERED, 0⟩]).1 =
      Except.ok b := by
  have h := c9_vp_failure_skips_provider_amended
    ⟨Except.ok ⟨100, []⟩,
     fun pk _ => if pk = 1 then Except.error "rpc unavailable" else Except.ok 1,
     fun _ => false, fun _ => Except.ok ()⟩ 100
    ⟨[1], 1, "k", "c", "d", 0, [9], FinalityProviderStatus.REGISTERED, 0⟩
    [⟨[2], 2, "k", "c", "d", 0, [9], FinalityProviderStatus.REGISTERED, 0⟩]
    [⟨[1], 1, "k", "c", "d", 0, [9], FinalityProviderStatus.REGISTERED, 0⟩,
     ⟨[2], 2, "k", "c", "d", 0, [9], FinalityProviderStatus.REGISTERED, 0⟩]
    false [] "rpc unavailable" ⟨100, []⟩
  exact ⟨h.1 rfl, h.2.2 rfl (fun pk => rfl) (by decide)⟩
